import Mathlib

/-!
Shallow embedding of the terr error-tracing library (src/terr.go).

Go error interface values relevant to this library are modelled by the
inductive type `Err`:
- `Err.base msg` is a plain error with no Unwrap method (as produced by
  errors.New, or by fmt.Errorf without any %w verb);
- `Err.wrap msg inner` is an error with an `Unwrap() error` method returning
  `inner` (fmt.Errorf with exactly one %w verb);
- `Err.multiwrap msg inners` is an error with an `Unwrap() []error` method
  (fmt.Errorf with two or more %w verbs); note errors.Unwrap ignores it;
- `Err.traced t` is a value implementing the TracedError interface.

`TracedError` values are either `TracedError.mk underlying loc children`,
the package's own *tracedError struct (fields: embedded error, location,
children), or `TracedError.custom msg loc children`, a third-party
implementer of the interface (it provides its own Error/Location/Children
and, in this model, none of the optional Is/As/Unwrap methods).

Go nil errors are modelled as `Option Err` with `none` for nil; Go slices
are modelled as lists (a nil slice and an empty slice are both `[]`, which
matches their observable behaviour under len/range/append).

The host facilities the package consumes (fmt.Errorf, errors.Is,
errors.Unwrap, runtime.Caller) are external collaborators; they are
modelled here at their documented interface boundary (Go 1.20 semantics).
-/

namespace Terr

/-- Source location, `type location struct { file string; line int }`. -/
structure Location where
  file : String
  line : Int
deriving DecidableEq, Repr

mutual
/-- A Go error interface value (see module docstring for the constructors). -/
inductive Err : Type where
  | base : String → Err
  | wrap : String → Err → Err
  | multiwrap : String → List Err → Err
  | traced : TracedError → Err

/-- A value implementing the TracedError interface: either the package's own
*tracedError struct (`mk`), or a third-party implementer (`custom`). -/
inductive TracedError : Type where
  | mk : Err → Location → List TracedError → TracedError
  | custom : String → Location → List TracedError → TracedError
end

mutual
/-- The Error() method of an error value. For the package's *tracedError this
is `func (e *tracedError) Error() string { return e.error.Error() }`. -/
def errMsg : Err → String
  | .base s => s
  | .wrap s _ => s
  | .multiwrap s _ => s
  | .traced t => teError t

/-- Error() of a TracedError: the package's node delegates to its underlying
error; a custom implementer reports its own message. -/
def teError : TracedError → String
  | .mk u _ _ => errMsg u
  | .custom s _ _ => s
end

/-- `func (e *tracedError) Location() (string, int) { return e.file, e.line }`
(a custom implementer reports its own stored location). -/
def TracedError.Location : TracedError → String × Int
  | .mk _ l _ => (l.file, l.line)
  | .custom _ l _ => (l.file, l.line)

/-- `func (e *tracedError) Children() []TracedError { return e.children }`
(a custom implementer reports its own stored children). -/
def TracedError.Children : TracedError → List TracedError
  | .mk _ _ cs => cs
  | .custom _ _ cs => cs

/-- The children of an error viewed as a traced node (empty for values that do
not implement the TracedError interface). -/
def nodeChildren : Err → List TracedError
  | .traced t => t.Children
  | _ => []

/-- The Go interface assertion `child.(TracedError)`: succeeds exactly on
values implementing the interface, regardless of their concrete type. -/
def asTracedError : Err → Option TracedError
  | .traced t => some t
  | _ => none

/-- `func getCallerLocation() location`: runtime.Caller(2) is external stack
introspection, modelled as its outcome (`none` when the frame cannot be
resolved, in which case Go leaves file and line at their zero values "" and
0; the code discards the `ok` flag and returns the location either way). -/
def getCallerLocation : Option (String × Int) → Location
  | some (f, l) => ⟨f, l⟩
  | none => ⟨"", 0⟩

/-- `func newTracedError(err error, children []error, loc location) error`:
keeps exactly those children that pass the TracedError interface assertion. -/
def newTracedError (err : Err) (children : List Err) (loc : Location) : Err :=
  .traced (.mk err loc (children.filterMap asTracedError))

/-- A fmt argument (`interface{}` value): an error, or a non-error value whose
rendering under a display verb is the given string. -/
inductive Arg where
  | err : Err → Arg
  | val : String → Arg

/-- The interface assertion `o.(error)` on a fmt argument. -/
def argAsError : Arg → Option Err
  | .err e => some e
  | .val _ => none

/-- `func filterErrors(objs []interface{}) []error`: keeps the arguments that
are errors. -/
def filterErrors (objs : List Arg) : List Err :=
  objs.filterMap argAsError

/-- A fragment of a fmt format string: literal text, a %w verb, or a
display/masking verb such as %v. -/
inductive Frag where
  | lit : String → Frag
  | verbW : Frag
  | verbV : Frag

/-- Rendering of an argument under a display verb. -/
def argString : Arg → String
  | .err e => errMsg e
  | .val s => s

/-- Model of fmt's message construction: verbs consume arguments in order;
missing and extra arguments are reported in the output as fmt does. -/
def fmtMsg : List Frag → List Arg → String
  | [], [] => ""
  | [], a :: as => "%!(EXTRA " ++ String.intercalate ", " ((a :: as).map argString) ++ ")"
  | .lit s :: fs, as => s ++ fmtMsg fs as
  | .verbW :: fs, [] => "%!w(MISSING)" ++ fmtMsg fs []
  | .verbW :: fs, a :: as => argString a ++ fmtMsg fs as
  | .verbV :: fs, [] => "%!v(MISSING)" ++ fmtMsg fs []
  | .verbV :: fs, a :: as => argString a ++ fmtMsg fs as

/-- The error arguments consumed by %w verbs, in order (these are the ones
fmt.Errorf places in the native unwrap chain). -/
def fmtWrapped : List Frag → List Arg → List Err
  | [], _ => []
  | .lit _ :: fs, as => fmtWrapped fs as
  | .verbW :: fs, [] => fmtWrapped fs []
  | .verbW :: fs, .err e :: as => e :: fmtWrapped fs as
  | .verbW :: fs, .val _ :: as => fmtWrapped fs as
  | .verbV :: fs, [] => fmtWrapped fs []
  | .verbV :: fs, _ :: as => fmtWrapped fs as

/-- Model of fmt.Errorf (Go 1.20): no %w error gives a plain error, one gives
an error with `Unwrap() error`, several give an error with
`Unwrap() []error`. -/
def fmtErrorf (fs : List Frag) (a : List Arg) : Err :=
  match fmtWrapped fs a with
  | [] => .base (fmtMsg fs a)
  | [e] => .wrap (fmtMsg fs a) e
  | es => .multiwrap (fmtMsg fs a) es

/-- `func Newf(format string, a ...interface{}) error`. -/
def Newf (format : List Frag) (a : List Arg) (frames : Option (String × Int)) : Err :=
  newTracedError (fmtErrorf format a) (filterErrors a) (getCallerLocation frames)

/-- `func Trace(err error) error`: nil in, nil out; otherwise a new node with
err as underlying and err as the single child candidate. -/
def Trace (err : Option Err) (frames : Option (String × Int)) : Option Err :=
  match err with
  | none => none
  | some e => some (newTracedError e [e] (getCallerLocation frames))

/-- `func TraceWithLocation(err error, file string, line int) error`. -/
def TraceWithLocation (err : Option Err) (file : String) (line : Int) : Option Err :=
  match err with
  | none => none
  | some e => some (newTracedError e [e] ⟨file, line⟩)

/-- `func TraceTree(err error) TracedError`: the interface assertion
`err.(TracedError)` with the failure value nil. -/
def TraceTree : Option Err → Option TracedError
  | none => none
  | some e => asTracedError e

mutual
/-- Model of errors.Unwrap (host protocol): calls the receiver's
`Unwrap() error` method when it has one, returns nil otherwise (in
particular for `Unwrap() []error` receivers and for custom traced errors,
which in this model implement no Unwrap method). -/
def errorsUnwrap : Err → Option Err
  | .base _ => none
  | .wrap _ inner => some inner
  | .multiwrap _ _ => none
  | .traced (.mk u _ _) => tracedErrorUnwrap u
  | .traced (.custom _ _ _) => none

/-- `func (e *tracedError) Unwrap() error { return errors.Unwrap(e.error) }`,
expressed on the node's underlying error field. -/
def tracedErrorUnwrap (u : Err) : Option Err :=
  errorsUnwrap u
end

mutual
/-- Model of Go `==` on error interface values (used by errors.Is). Go
compares pointers here; structural equality is the value-level model, and
theorems that depend on a freshly allocated node being distinct from
pre-existing values take that freshness as an explicit hypothesis. -/
def beqErr : Err → Err → Bool
  | .base s, .base t => s == t
  | .wrap s a, .wrap t b => s == t && beqErr a b
  | .multiwrap s as, .multiwrap t bs => s == t && beqErrList as bs
  | .traced a, .traced b => beqTE a b
  | _, _ => false

/-- Go `==` on lists of errors, elementwise. -/
def beqErrList : List Err → List Err → Bool
  | [], [] => true
  | a :: as, b :: bs => beqErr a b && beqErrList as bs
  | _, _ => false

/-- Go `==` on TracedError values, structurally (see `beqErr`). -/
def beqTE : TracedError → TracedError → Bool
  | .mk u l cs, .mk v m ds =>
      beqErr u v && l.file == m.file && l.line == m.line && beqTEList cs ds
  | .custom s l cs, .custom t m ds =>
      s == t && l.file == m.file && l.line == m.line && beqTEList cs ds
  | _, _ => false

/-- Go `==` on lists of TracedError values, elementwise. -/
def beqTEList : List TracedError → List TracedError → Bool
  | [], [] => true
  | a :: as, b :: bs => beqTE a b && beqTEList as bs
  | _, _ => false
end

/-- Unwrapping through errors.Unwrap yields a structurally smaller error. -/
theorem errorsUnwrap_sizeOf : ∀ (u v : Err), errorsUnwrap u = some v → sizeOf v < sizeOf u
  | .base _, v => by simp [errorsUnwrap]
  | .wrap s inner, v => by
      simp only [errorsUnwrap, Option.some.injEq]
      rintro rfl
      first
        | (simp; omega)
        | simp
        | omega
  | .multiwrap _ _, v => by simp [errorsUnwrap]
  | .traced (.mk u l cs), v => by
      simp only [errorsUnwrap, tracedErrorUnwrap]
      intro h
      have ih := errorsUnwrap_sizeOf u v h
      first
        | (simp; omega)
        | (simp at ih ⊢; omega)
        | omega
  | .traced (.custom _ _ _), v => by simp [errorsUnwrap]

mutual
/-- Model of errors.Is (host protocol, Go 1.20): compare with `==`, then try
the receiver's own `Is(error) bool` method (the package's node delegates to
errors.Is on its underlying error), then follow `Unwrap() error` or fan out
over `Unwrap() []error`. -/
def errorsIs (x target : Err) : Bool :=
  beqErr x target ||
  (match x with
   | .traced (.mk u _ _) => errorsIs u target
   | _ => false) ||
  (match x with
   | .wrap _ inner => errorsIs inner target
   | .multiwrap _ es => errorsIsList es target
   | .traced (.mk u _ _) =>
       match h : errorsUnwrap u with
       | some nxt => errorsIs nxt target
       | none => false
   | _ => false)
termination_by sizeOf x
decreasing_by
  all_goals first
    | (have hs := errorsUnwrap_sizeOf u nxt h; simp at hs ⊢; omega)
    | (simp; omega)
    | simp
    | omega

/-- errors.Is fanned out over the targets of an `Unwrap() []error` method. -/
def errorsIsList (xs : List Err) (target : Err) : Bool :=
  match xs with
  | [] => false
  | e :: rest => errorsIs e target || errorsIsList rest target
termination_by sizeOf xs
decreasing_by
  all_goals first
    | (simp; omega)
    | simp
    | omega
end

/-- strings.Repeat("\t", d). -/
def tabs (d : Nat) : String :=
  String.mk (List.replicate d '\t')

mutual
/-- `func treeRepr(err error, depth int) []string`: one line for this node
(depth tabs, Error(), " @ ", file ":" line), then the lines of each child at
depth+1, in order. -/
def treeRepr : TracedError → Nat → List String
  | .mk u l cs, depth =>
      (tabs depth ++ errMsg u ++ " @ " ++ (l.file ++ ":" ++ toString l.line))
        :: treeReprList cs (depth + 1)
  | .custom s l cs, depth =>
      (tabs depth ++ s ++ " @ " ++ (l.file ++ ":" ++ toString l.line))
        :: treeReprList cs (depth + 1)

/-- The concatenated tree lines of a list of nodes, all at the same depth. -/
def treeReprList : List TracedError → Nat → List String
  | [], _ => []
  | t :: rest, depth => treeRepr t depth ++ treeReprList rest depth
end

/-- Host fmt fallback used by Format for any verb other than '@':
`fmt.Fprintf(f, fmt.FormatString(f, verb), e.error)` renders the underlying
error under that verb; display verbs print its message. Modelled at the fmt
interface boundary. -/
def hostFormat (verb : Char) (e : Err) : String :=
  if verb == 'v' || verb == 's' then errMsg e
  else "%!" ++ String.mk [verb] ++ "(" ++ errMsg e ++ ")"

/-- `func (e *tracedError) Format(f fmt.State, verb rune)`, given the node's
fields: the reserved '@' verb prints the tree lines joined by newlines,
every other verb is forwarded to the underlying error's formatting. -/
def Format (u : Err) (l : Location) (cs : List TracedError) (verb : Char) : String :=
  if verb == '@' then String.intercalate "\n" (treeRepr (.mk u l cs) 0)
  else hostFormat verb u

/-- The traced-node view of a fmt argument: `some t` exactly when the argument
is an error implementing the TracedError interface. -/
def argTraced : Arg → Option TracedError
  | .err (.traced t) => some t
  | _ => none

/-- The interface assertion yields `some t` exactly on the value `traced t`. -/
theorem asTracedError_eq_some (x : Err) (t : TracedError) :
    asTracedError x = some t ↔ x = Err.traced t := by
  cases x <;> simp [asTracedError]

/-- Unfolding of errors.Is on an error without Is and Unwrap methods. -/
theorem errorsIs_base (s : String) (t : Err) :
    errorsIs (.base s) t = beqErr (.base s) t := by
  rw [errorsIs] <;> simp

/-- Unfolding of errors.Is on an error with an `Unwrap() error` method. -/
theorem errorsIs_wrap (s : String) (i t : Err) :
    errorsIs (.wrap s i) t = (beqErr (.wrap s i) t || errorsIs i t) := by
  rw [errorsIs] <;> simp

/-- Unfolding of errors.Is on an error with an `Unwrap() []error` method. -/
theorem errorsIs_multiwrap (s : String) (es : List Err) (t : Err) :
    errorsIs (.multiwrap s es) t = (beqErr (.multiwrap s es) t || errorsIsList es t) := by
  rw [errorsIs] <;> simp

/-- Unfolding of errors.Is on the package's traced node: equality, then the
node's Is method (errors.Is on the underlying), then the node's Unwrap. -/
theorem errorsIs_traced_mk (u : Err) (l : Location) (cs : List TracedError) (t : Err) :
    errorsIs (.traced (.mk u l cs)) t =
      (beqErr (.traced (.mk u l cs)) t || errorsIs u t ||
        (errorsUnwrap u).elim false (fun nxt => errorsIs nxt t)) := by
  rw [errorsIs]
  cases hu : errorsUnwrap u <;> simp [hu]

/-- Unfolding of errors.Is on a custom traced error (no Is or Unwrap method in
this model). -/
theorem errorsIs_traced_custom (s : String) (l : Location) (cs : List TracedError) (t : Err) :
    errorsIs (.traced (.custom s l cs)) t = beqErr (.traced (.custom s l cs)) t := by
  rw [errorsIs] <;> simp

/-- Claim C1: every construction operation (Newf, Trace, TraceWithLocation)
builds its node through newTracedError, and a value t is a child of the node
newTracedError builds exactly when the traced error `Err.traced t` was among
the supplied child candidates — so every child implements the TracedError
interface and a plain (non-traced) error is silently dropped. -/
theorem c1_children_only_traced (err : Err) (children : List Err) (loc : Location)
    (t : TracedError) (format : List Frag) (a : List Arg)
    (fr : Option (String × Int)) (e : Err) (file : String) (line : Int) :
    (t ∈ nodeChildren (newTracedError err children loc) ↔ Err.traced t ∈ children) ∧
    Newf format a fr
      = newTracedError (fmtErrorf format a) (filterErrors a) (getCallerLocation fr) ∧
    Trace (some e) fr = some (newTracedError e [e] (getCallerLocation fr)) ∧
    TraceWithLocation (some e) file line = some (newTracedError e [e] ⟨file, line⟩) := by
  refine ⟨?_, rfl, rfl, rfl⟩
  simp [newTracedError, nodeChildren, TracedError.Children, List.mem_filterMap,
    asTracedError_eq_some]

/-- Claim C2: the children of a Newf node are exactly the traced arguments, in
their original argument order, independent of the format fragments (so of the
verbs %w and %v alike); error arguments that are not traced, and non-error
arguments, contribute no child. -/
theorem c2_newf_children_traced_args (format : List Frag) (a : List Arg)
    (fr : Option (String × Int)) :
    nodeChildren (Newf format a fr) = a.filterMap argTraced := by
  have hfun : (fun x => (argAsError x).bind asTracedError) = argTraced := by
    funext x
    cases x with
    | err e => cases e <;> rfl
    | val s => rfl
  simp [Newf, newTracedError, nodeChildren, TracedError.Children, filterErrors,
    List.filterMap_filterMap, hfun]

/-- Claim C3: Trace of a non-nil error returns a node with the input's message
unchanged, whose children are [e] when e is itself traced and [] otherwise. -/
theorem c3_trace_zero_transformation (e : Err) (fr : Option (String × Int)) :
    ∃ n, Trace (some e) fr = some n ∧ errMsg n = errMsg e ∧
      nodeChildren n = (match e with | .traced t => [t] | _ => []) := by
  refine ⟨_, rfl, rfl, ?_⟩
  cases e <;> simp [newTracedError, nodeChildren, TracedError.Children, asTracedError]

/-- Claim C4: the traced node's Unwrap is errors.Unwrap of the underlying
error, not the underlying itself: when the underlying wraps nothing the node
unwraps to nil even with a nonempty child list, and when the underlying wraps
v the node unwraps to v, which is never the underlying itself. -/
theorem c4_unwrap_delegation (u : Err) (l : Location) (cs : List TracedError) (s : String) :
    errorsUnwrap (.traced (.mk u l cs)) = errorsUnwrap u ∧
    errorsUnwrap (.traced (.mk (.base s) l cs)) = none ∧
    (errorsUnwrap (.traced (.mk (.wrap s u) l cs)) = some u ∧ Err.wrap s u ≠ u) := by
  refine ⟨?_, ?_, ?_, ?_⟩
  · simp [errorsUnwrap, tracedErrorUnwrap]
  · simp [errorsUnwrap, tracedErrorUnwrap]
  · simp [errorsUnwrap, tracedErrorUnwrap]
  · intro h
    have hs := congrArg sizeOf h
    first
      | (simp at hs; omega)
      | simp at hs

/-- Claim C7: all accessors propagate nil: Trace, TraceWithLocation and
TraceTree return nil on a nil input error. -/
theorem c7_nil_propagation (file : String) (line : Int) (fr : Option (String × Int)) :
    Trace none fr = none ∧ TraceWithLocation none file line = none ∧
      TraceTree none = none :=
  ⟨rfl, rfl, rfl⟩

/-- Claim C8: a node constructed from child candidates none of which is a
traced error has the empty list as children (Go slices are modelled as lists,
where a nil slice and an empty slice coincide as the empty list). -/
theorem c8_children_empty_not_null (err : Err) (cs : List Err) (loc : Location)
    (h : ∀ c ∈ cs, asTracedError c = none) :
    newTracedError err cs loc = .traced (.mk err loc []) ∧
    TracedError.Children (.mk err loc []) = [] := by
  refine ⟨?_, rfl⟩
  simp only [newTracedError]
  congr 1
  congr 1
  exact List.filterMap_eq_nil.mpr h

/-- Witness for claim C8 at concrete inputs. -/
theorem c8_witness :
    (∀ c ∈ [Err.base "x"], asTracedError c = none) ∧
    (newTracedError (Err.base "y") [Err.base "x"] ⟨"", 0⟩
        = .traced (.mk (Err.base "y") ⟨"", 0⟩ []) ∧
      TracedError.Children (.mk (Err.base "y") ⟨"", 0⟩ []) = []) := by
  have h0 : ∀ c ∈ [Err.base "x"], asTracedError c = none := by
    simp [asTracedError]
  exact ⟨h0, c8_children_empty_not_null (Err.base "y") [Err.base "x"] ⟨"", 0⟩ h0⟩

/-- Claim C9: location capture is total: when stack introspection fails it
still returns the structurally valid Location with empty file and line 0, when
it succeeds it returns the resolved file and line, and in every case the
result is a Location value (no error is ever propagated). -/
theorem c9_location_capture_total (f : String) (l : Int) (r : Option (String × Int)) :
    getCallerLocation none = ⟨"", 0⟩ ∧ getCallerLocation (some (f, l)) = ⟨f, l⟩ ∧
    ∃ ff ll, getCallerLocation r = Location.mk ff ll := by
  refine ⟨rfl, rfl, ?_⟩
  cases r with
  | none => exact ⟨"", 0, rfl⟩
  | some p => exact ⟨p.1, p.2, by cases p ; rfl⟩

/-- The recursive child walk concatenates each child's lines in order. -/
theorem treeReprList_eq (cs : List TracedError) (d : Nat) :
    treeReprList cs d = cs.flatMap (fun c => treeRepr c d) := by
  induction cs with
  | nil => simp [treeReprList]
  | cons t rest ih => simp [treeReprList, ih]

/-- Claim C5: formatting with the reserved '@' verb produces the pre-order
depth-first rendering of the trace tree joined by newlines with the root at
depth 0, where a node at depth d contributes exactly one line made of d tab
characters, its message, " @ ", the file, ":" and the line number, followed by
each child's lines at depth d+1 in child order. -/
theorem c5_format_at_renders_tree (u : Err) (l : Location) (cs : List TracedError)
    (t : TracedError) (d : Nat) :
    Format u l cs '@' = String.intercalate "\n" (treeRepr (.mk u l cs) 0) ∧
    treeRepr t d
      = (tabs d ++ teError t ++ " @ " ++ (TracedError.Location t).1 ++ ":"
          ++ toString (TracedError.Location t).2)
        :: (TracedError.Children t).flatMap (fun c => treeRepr c (d + 1)) := by
  constructor
  · simp [Format]
  · cases t <;>
      simp [treeRepr, TracedError.Location, TracedError.Children, teError,
        treeReprList_eq, String.append_assoc]

/-- errors.Is is monotone under errors.Unwrap: whatever is reachable after one
unwrap step was already reachable before it. -/
theorem errorsIs_of_unwrap (e nxt s : Err) (h : errorsUnwrap e = some nxt)
    (h2 : errorsIs nxt s = true) : errorsIs e s = true := by
  cases e with
  | base m => simp [errorsUnwrap] at h
  | wrap m i =>
      simp [errorsUnwrap] at h
      subst h
      simp [errorsIs_wrap, h2]
  | multiwrap m es => simp [errorsUnwrap] at h
  | traced t =>
      cases t with
      | mk u l cs =>
          simp only [errorsUnwrap, tracedErrorUnwrap] at h
          simp [errorsIs_traced_mk, h, h2]
      | custom m l cs => simp [errorsUnwrap] at h

/-- Claim C6: identity delegation round-trip: errors.Is gives the same answer
on the node Trace builds for e as on e itself, for every target s. The
hypothesis states that the freshly allocated node is not Go-== to s, which
always holds in Go since Trace returns a fresh pointer. -/
theorem c6_is_delegation (e s : Err) (fr : Option (String × Int))
    (hfresh : beqErr (newTracedError e [e] (getCallerLocation fr)) s = false) :
    Trace (some e) fr = some (newTracedError e [e] (getCallerLocation fr)) ∧
    errorsIs (newTracedError e [e] (getCallerLocation fr)) s = errorsIs e s := by
  refine ⟨rfl, ?_⟩
  have hrepr : newTracedError e [e] (getCallerLocation fr)
      = Err.traced (.mk e (getCallerLocation fr) ([e].filterMap asTracedError)) := rfl
  rw [hrepr] at hfresh ⊢
  rw [errorsIs_traced_mk, hfresh]
  simp only [Bool.false_or]
  cases his : errorsIs e s with
  | true => simp
  | false =>
      simp only [Bool.false_or]
      cases hu : errorsUnwrap e with
      | none => simp
      | some nxt =>
          simp only [Option.elim]
          cases hnxt : errorsIs nxt s with
          | false => rfl
          | true => exact absurd (errorsIs_of_unwrap e nxt s hu hnxt) (by simp [his])

/-- Witness for claim C6 at concrete inputs. -/
theorem c6_witness :
    beqErr (newTracedError (Err.base "a") [Err.base "a"] (getCallerLocation none))
        (Err.base "b") = false ∧
    (Trace (some (Err.base "a")) none
        = some (newTracedError (Err.base "a") [Err.base "a"] (getCallerLocation none)) ∧
      errorsIs (newTracedError (Err.base "a") [Err.base "a"] (getCallerLocation none))
          (Err.base "b")
        = errorsIs (Err.base "a") (Err.base "b")) := by
  have h0 : beqErr (newTracedError (Err.base "a") [Err.base "a"] (getCallerLocation none))
      (Err.base "b") = false := by
    show beqErr (Err.traced (.mk (Err.base "a") ⟨"", 0⟩ [])) (Err.base "b") = false
    rw [beqErr] <;> simp
  exact ⟨h0, c6_is_delegation (Err.base "a") (Err.base "b") none h0⟩

/-- Claim C10: membership in the traced tree is decided by the interface
assertion, not by construction origin: a custom implementer of the
TracedError interface is accepted as a child by newTracedError and is
returned as a tree root by TraceTree. -/
theorem c10_interface_membership (s : String) (l : Location) (cs : List TracedError)
    (err : Err) (loc : Location) :
    nodeChildren (newTracedError err [.traced (.custom s l cs)] loc) = [.custom s l cs] ∧
    TraceTree (some (.traced (.custom s l cs))) = some (.custom s l cs) ∧
    asTracedError (.traced (.custom s l cs)) = some (.custom s l cs) := by
  refine ⟨?_, rfl, rfl⟩
  simp [newTracedError, nodeChildren, TracedError.Children, asTracedError]

end Terr
